import Mathlib

/-!
# Verification of the SAC-D / Aquarius telemetry packet parser

Shallow embedding of the parser (`src/parser.py`, `src/sacd.py`,
`src/aquarius.py`).  Python `bytes` values become `List Nat` whose
elements are below 256; slices `b[i:j]` become `(l.drop i).take j`
(matching Python's clamping semantics); insertion-ordered dicts become
association lists; raised exceptions become `Except String`; Python
floats are modelled as exact rationals.
-/

set_option maxRecDepth 100000

namespace SatTelemetry

/-! ## CRC-16/BUYPASS engine (`src/sacd.py` lines 27-59, duplicated in `src/aquarius.py`) -/

def POLY : Nat := 0x8005

/-- One lookup-table entry: seed `crc = b <<< 8`, then 8 steps of
shift-left-and-conditionally-XOR with the polynomial, masked to 16 bits. -/
def crcTableEntry (poly b : Nat) : Nat :=
  (List.range 8).foldl
    (fun crc _ =>
      if crc &&& 0x8000 ≠ 0 then ((crc <<< 1) ^^^ poly) &&& 0xFFFF
      else (crc <<< 1) &&& 0xFFFF)
    (b <<< 8)

/-- `SACDPacket._CRC16_BUYPASS_TABLE`: the 256-entry table for `POLY`. -/
def CRC16_BUYPASS_TABLE : List Nat := (List.range 256).map (crcTableEntry POLY)

/-- `AquariusPacket._CRC16_BUYPASS_TABLE`: the table as constructed, with the
same algorithm and polynomial `0x8005`, in `src/aquarius.py`. -/
def AQUARIUS_CRC16_BUYPASS_TABLE : List Nat := (List.range 256).map (crcTableEntry 0x8005)

/-- One running-update step of `SACDPacket.crc16_buypass`. -/
def crc16Step (crc b : Nat) : Nat :=
  let idx := ((crc >>> 8) ^^^ b) &&& 0xFF
  ((crc <<< 8) ^^^ CRC16_BUYPASS_TABLE.getD idx 0) &&& 0xFFFF

/-- `SACDPacket.crc16_buypass(data, init_crc)`. -/
def crc16_buypass (data : List Nat) (init_crc : Nat) : Nat :=
  data.foldl crc16Step init_crc

/-! ## Byte-string helpers -/

/-- Association-list lookup modelling Python dict indexing `d[k]`. -/
def dictGet {α : Type} (d : List (String × α)) (k : String) : Option α :=
  match d with
  | [] => none
  | p :: rest => if p.1 = k then some p.2 else dictGet rest k

/-- `int.from_bytes(bs, endianness)` (unsigned). -/
def intFromBytesU (endianness : String) (bs : List Nat) : Nat :=
  (if endianness = "big" then bs else bs.reverse).foldl (fun acc b => acc * 256 + b) 0

/-- `int.from_bytes(bs, endianness, signed)` : two's-complement when the
sign bit of the most significant byte is set. -/
def intFromBytes (endianness : String) (signed : Bool) (bs : List Nat) : Int :=
  let u := intFromBytesU endianness bs
  if signed = true ∧ 2 * u ≥ 2 ^ (8 * bs.length) then (u : Int) - 2 ^ (8 * bs.length)
  else (u : Int)

/-- One hexadecimal digit, uppercase, as produced by Python format `X`. -/
def hexDigit (n : Nat) : Char :=
  if n < 10 then Char.ofNat (48 + n) else Char.ofNat (55 + n)

/-- Python format `04X` for values below `0x10000` (CRC values always are). -/
def hex4 (n : Nat) : String :=
  String.mk [hexDigit (n / 4096 % 16), hexDigit (n / 256 % 16), hexDigit (n / 16 % 16),
    hexDigit (n % 16)]

/-! ## Packet splitting and structuring (`src/parser.py` lines 26-79) -/

abbrev Layout := List (String × Nat)
abbrev StructuredPacket := List (String × List Nat)

/-- The `PacketParser.__init__` completeness check (`src/parser.py` lines 26-30). -/
def initSizeCheck (dataLen packet_size : Nat) : Except String Unit :=
  if dataLen % packet_size ≠ 0 then
    Except.error ("Binary file has " ++ toString dataLen ++ " bytes but packet size is "
      ++ toString packet_size ++ ", so not all packets are complete.")
  else Except.ok ()

/-- Raw split `[data[i:i+ps] for i in range(0, size, ps)]`
(`src/parser.py` lines 41-44); `range(0, size, ps)` has `⌈size/ps⌉` elements. -/
def splitPackets (data : List Nat) (packet_size : Nat) : List (List Nat) :=
  (List.range ((data.length + packet_size - 1) / packet_size)).map
    (fun i => (data.drop (i * packet_size)).take packet_size)

/-- `PacketParser._section_offsets` accumulator (`src/parser.py` lines 73-79). -/
def sectionOffsetsFrom (pos : Nat) : List Nat → List Nat
  | [] => []
  | size :: rest => pos :: sectionOffsetsFrom (pos + size) rest

def sectionOffsets (sections : Layout) : List Nat :=
  sectionOffsetsFrom 0 (sections.map Prod.snd)

/-- Sum of the declared section sizes (`sum(self.sections.values())`). -/
def sectionsSum (sections : Layout) : Nat := (sections.map Prod.snd).sum

/-- Split one raw packet into named sections at the cumulative offsets
(`src/parser.py` lines 55-65). -/
def structurePacket (sections : Layout) (packet : List Nat) : StructuredPacket :=
  (sections.zip (sectionOffsets sections)).map
    (fun p => (p.1.1, (packet.drop p.2).take p.1.2))

/-! ## CRC validation (`src/parser.py` lines 81-107) -/

/-- The bytes checksummed for one packet:
`b"".join(pkt[name] for name in self.sections if name != "CRC")`. -/
def dataForCrc (sections : Layout) (pkt : StructuredPacket) : List Nat :=
  ((sections.filter (fun s => s.1 ≠ "CRC")).map (fun s => (dictGet pkt s.1).getD [])).flatten

/-- `int.from_bytes(pkt["CRC"], self.endianness)`. -/
def expectedCrcOf (endianness : String) (pkt : StructuredPacket) : Nat :=
  intFromBytesU endianness ((dictGet pkt "CRC").getD [])

/-- The `RuntimeError` message raised on a mismatch (`src/parser.py` line 106);
the source renders both values with format `04X` (4-digit uppercase hex). -/
def crcMismatchMessage (i expected computed : Nat) : String :=
  "CRC mismatch in packet " ++ toString i ++ ": expected 0x" ++ hex4 expected
    ++ ", got 0x" ++ hex4 computed

/-- The validation loop `for i, pkt in enumerate(packets, start=1): ...`,
parameterised by the running counter `i`. -/
def validateCrcFrom (sections : Layout) (endianness : String)
    (crcfn : List Nat → Nat) (i : Nat) : List StructuredPacket → Except String Unit
  | [] => Except.ok ()
  | pkt :: rest =>
    let expected := expectedCrcOf endianness pkt
    let computed := crcfn (dataForCrc sections pkt)
    if computed ≠ expected then Except.error (crcMismatchMessage i expected computed)
    else validateCrcFrom sections endianness crcfn (i + 1) rest

/-- `PacketParser._validate_crc` (`src/parser.py` lines 81-107): requires a
`CRC` section, then checks packets in order, counting from 1, aborting on the
first mismatch.  The verbose progress printing is a pure side effect and is
not modelled. -/
def validate_crc (sections : Layout) (endianness : String)
    (crcfn : List Nat → Nat) (packets : List StructuredPacket) : Except String Unit :=
  if "CRC" ∈ sections.map Prod.fst then validateCrcFrom sections endianness crcfn 1 packets
  else Except.error "CRC field missing in sections map."

/-! ## Field descriptors and telemetry extraction (`src/parser.py` lines 120-156) -/

/-- One `_fields` entry: a Python dict with optional keys, so every
optional key is an `Option`.  `sectionName` models the `"section"` key. -/
structure FieldDescriptor where
  sectionName : String
  position : Nat
  size : Nat
  endianness : Option String
  signed : Option Bool
  k : Option ℚ
  offset : Option ℚ
  unit : Option String
deriving DecidableEq

/-- The size-mismatch `ValueError` message (`src/parser.py` line 138),
without the quote characters around the field name. -/
def sizeMismatchMessage (field_name : String) (expected got : Nat) : String :=
  "Field " ++ field_name ++ " size mismatch: expected " ++ toString expected
    ++ ", got " ++ toString got

/-- `PacketParser.get_telemetry_value_by_name` (`src/parser.py` lines 120-146). -/
def get_telemetry_value_by_name (fields : List (String × FieldDescriptor))
    (sections : Option Layout) (endianness : String)
    (field_name : String) (packet : StructuredPacket) : Except String ℚ :=
  match dictGet fields field_name with
  | none => Except.error ("Invalid field " ++ field_name)
  | some field =>
    if sections.isNone then Except.error "No sections defined for telemetry extraction."
    else
      match dictGet packet field.sectionName with
      | none => Except.error ("Section " ++ field.sectionName ++ " not found in packet.")
      | some sec =>
        let raw := (sec.drop field.position).take field.size
        if raw.length ≠ field.size then
          Except.error (sizeMismatchMessage field_name field.size raw.length)
        else
          Except.ok
            ((intFromBytes (field.endianness.getD endianness) (field.signed.getD false) raw : ℚ)
              * field.k.getD 1 + field.offset.getD 0)

/-- The list comprehension
`[self.get_telemetry_value_by_name(field_name, pkt) for pkt in packets]`:
left to right, first exception aborts the whole comprehension. -/
def mapDecode (f : StructuredPacket → Except String ℚ) :
    List StructuredPacket → Except String (List ℚ)
  | [] => Except.ok []
  | p :: ps =>
    match f p with
    | Except.error e => Except.error e
    | Except.ok v =>
      match mapDecode f ps with
      | Except.error e => Except.error e
      | Except.ok vs => Except.ok (v :: vs)

/-- `PacketParser.get_all_telemetry_values_by_name` (`src/parser.py` lines
148-156).  Returns the values paired with the unit when `return_unit`,
and with `none` otherwise. -/
def get_all_telemetry_values_by_name (fields : List (String × FieldDescriptor))
    (sections : Option Layout) (endianness : String) (field_name : String)
    (packets : List StructuredPacket) (return_unit : Bool) :
    Except String (List ℚ × Option String) :=
  if return_unit then
    match dictGet fields field_name with
    | none => Except.error ("KeyError: " ++ field_name)
    | some fd =>
      if fd.unit.isNone then
        Except.error ("Field " ++ field_name ++ " missing unit definition.")
      else
        (mapDecode (get_telemetry_value_by_name fields sections endianness field_name)
          packets).map (fun vs => (vs, fd.unit))
  else
    (mapDecode (get_telemetry_value_by_name fields sections endianness field_name)
      packets).map (fun vs => (vs, none))

/-! ## Packet ordering (`src/parser.py` lines 161-165, `src/sacd.py` lines 83-92) -/

/-- Comparison on key-decorated packets: Python `sorted(packets, key=...)`
sorts ascending by the computed key. -/
def obtKeyLe (a b : ℚ × StructuredPacket) : Prop := a.1 ≤ b.1

instance : DecidableRel obtKeyLe := fun a b => inferInstanceAs (Decidable (a.1 ≤ b.1))

/-- Compute the sort key of every packet, left to right, propagating the
first failure (CPython `sorted` decorates each element with its key before
comparing). -/
def tagWithKey (keyfn : StructuredPacket → Except String ℚ) :
    List StructuredPacket → Except String (List (ℚ × StructuredPacket))
  | [] => Except.ok []
  | p :: ps =>
    match keyfn p with
    | Except.error e => Except.error e
    | Except.ok v =>
      match tagWithKey keyfn ps with
      | Except.error e => Except.error e
      | Except.ok vs => Except.ok ((v, p) :: vs)

/-- `PacketParser.order_packets`: `sorted(packets, key=self.get_ordering_key)`.
Python's sort is stable and ascending; it is modelled by the stable
`List.insertionSort` on the key-decorated list. -/
def order_packets (keyfn : StructuredPacket → Except String ℚ)
    (packets : List StructuredPacket) : Except String (List StructuredPacket) :=
  (tagWithKey keyfn packets).map
    (fun tagged => (tagged.insertionSort obtKeyLe).map Prod.snd)

/-! ## SAC-D format constants (`src/sacd.py`) -/

/-- `SACDPacket.frame_parts`. -/
def SACD_frame_parts : Layout :=
  [("IDS", 3), ("FRAME#", 4), ("HK_ID", 1), ("CDH", 272), ("MM1", 150), ("MM2", 150),
   ("ACS", 1024), ("PCS", 1024), ("AQUARIUS", 500), ("HSC", 120), ("TDP", 150),
   ("PAD", 600), ("CRC", 2)]

/-- `SACDPacket._fields`. -/
def SACD_fields : List (String × FieldDescriptor) :=
  [("vBatAverage",
      ⟨"PCS", 750, 2, none, none, some (0.01873128 : ℚ), some (-38.682956 : ℚ), some "V"⟩),
   ("OBT", ⟨"CDH", 92, 4, none, none, none, none, some "GPS Time"⟩),
   ("OBT_s", ⟨"CDH", 92, 4, none, none, none, none, some "Seconds"⟩)]

/-- `SACDPacket.get_ordering_key`: the decoded `OBT` value. -/
def get_ordering_key (packet : StructuredPacket) : Except String ℚ :=
  get_telemetry_value_by_name SACD_fields (some SACD_frame_parts) "big" "OBT" packet

/-! ## GPS time conversion (`src/parser.py` lines 226-231) -/

/-- Days from 1970-01-01 of a proleptic Gregorian date (civil calendar),
the standard era-based formula; models Python `datetime` date arithmetic. -/
def daysFromCivil (y m d : Int) : Int :=
  let y2 := if m ≤ 2 then y - 1 else y
  let era := (if 0 ≤ y2 then y2 else y2 - 399) / 400
  let yoe := y2 - era * 400
  let doy := (153 * (if 2 < m then m - 3 else m + 9) + 2) / 5 + d - 1
  let doe := yoe * 365 + yoe / 4 - yoe / 100 + doy
  era * 146097 + doe - 719468

/-- A calendar timestamp as seconds from 1970-01-01T00:00:00. -/
def civilSecs (y m d h mi s : Int) : Int :=
  daysFromCivil y m d * 86400 + h * 3600 + mi * 60 + s

/-- `leap_seconds = 19  # current offset`. -/
def leap_seconds : Int := 19

/-- `datetime(1980, 1, 6)` as absolute seconds. -/
def gpsEpochSecs : Int := civilSecs 1980 1 6 0 0 0

/-- `PacketParser.convert_gps_to_datetime`: maps each raw count `s` to
`gps_epoch + timedelta(seconds = s - leap_seconds)`. -/
def convert_gps_to_datetime (gps_seconds_list : List Int) : List Int :=
  gps_seconds_list.map (fun s => gpsEpochSecs + (s - leap_seconds))

/-! ## Structuring lemmas -/

theorem sectionOffsetsFrom_shift (l : List Nat) (pos : Nat) :
    sectionOffsetsFrom pos l = (sectionOffsetsFrom 0 l).map (fun off => pos + off) := by
  induction l generalizing pos with
  | nil => rfl
  | cons s rest ih =>
    simp only [sectionOffsetsFrom, List.map_cons, Nat.add_zero, List.map_map]
    congr 1
    rw [ih (pos + s), ih (0 + s), List.map_map]
    exact List.map_congr_left fun a _ => by simp only [Function.comp_apply]; omega

theorem structurePacket_cons (s : String × Nat) (rest : Layout) (pkt : List Nat) :
    structurePacket (s :: rest) pkt
      = (s.1, pkt.take s.2) :: structurePacket rest (pkt.drop s.2) := by
  unfold structurePacket sectionOffsets
  simp only [List.map_cons, sectionOffsetsFrom, List.zip_cons_cons, List.drop_zero]
  congr 1
  rw [sectionOffsetsFrom_shift, List.zip_map_right, List.map_map]
  exact List.map_congr_left fun a _ => by
    simp [Function.comp, Prod.map, List.drop_drop]

/-- Concatenating the section slices in layout order gives the prefix of the
packet of length the sum of the declared sizes. -/
theorem structure_flatten_eq_take (sections : Layout) (pkt : List Nat) :
    ((structurePacket sections pkt).map Prod.snd).flatten = pkt.take (sectionsSum sections) := by
  induction sections generalizing pkt with
  | nil => simp [structurePacket, sectionsSum]
  | cons s rest ih =>
    rw [structurePacket_cons]
    simp only [List.map_cons, List.flatten_cons, ih (pkt.drop s.2)]
    rw [show sectionsSum (s :: rest) = s.2 + sectionsSum rest from rfl,
      List.take_add]

/-- C3: for every raw packet of length `packet_size` and every section layout
whose lengths sum to `packet_size`, structuring the packet at the layout's
cumulative offsets and then concatenating the section byte-ranges in layout
order reproduces the original packet bytes exactly. -/
theorem structure_concat_roundtrip (sections : Layout) (packet : List Nat)
    (h : sectionsSum sections = packet.length) :
    ((structurePacket sections packet).map Prod.snd).flatten = packet := by
  rw [structure_flatten_eq_take, h, List.take_length]

/-- Witness for C3 at a concrete layout and packet. -/
theorem structure_concat_roundtrip_witness :
    sectionsSum [("A", 1), ("B", 2)] = ([9, 8, 7] : List Nat).length ∧
      ((structurePacket [("A", 1), ("B", 2)] [9, 8, 7]).map Prod.snd).flatten = [9, 8, 7] :=
  ⟨by decide, structure_concat_roundtrip [("A", 1), ("B", 2)] [9, 8, 7] (by decide)⟩

/-! ## C7: CRC table determinism and empty checksum -/

/-- C7: the 256-entry table is a pure function of the polynomial computed by
the specified algorithm, so the two constructions in the source
(`SACDPacket` and `AquariusPacket`) produce the identical 256-entry table;
and the running checksum of the empty byte sequence equals the initial value
(`0x0000` by default). -/
theorem crc_table_deterministic_and_empty_checksum :
    CRC16_BUYPASS_TABLE = AQUARIUS_CRC16_BUYPASS_TABLE ∧
    CRC16_BUYPASS_TABLE.length = 256 ∧
    (∀ init_crc : Nat, crc16_buypass [] init_crc = init_crc) ∧
    crc16_buypass [] 0 = 0 :=
  ⟨rfl, by simp [CRC16_BUYPASS_TABLE], fun _ => rfl, rfl⟩

/-! ## C6: GPS time conversion -/

/-- C6: time conversion maps every raw count `s` to the epoch
1980-01-06T00:00:00 UTC plus `(s - 19)` seconds, and in particular raw
count 0 maps to 1980-01-05T23:59:41 UTC. -/
theorem convert_gps_epoch_and_leap :
    (∀ l : List Int, convert_gps_to_datetime l
        = l.map (fun s => civilSecs 1980 1 6 0 0 0 + (s - 19))) ∧
    convert_gps_to_datetime [0] = [civilSecs 1980 1 5 23 59 41] :=
  ⟨fun _ => rfl, by decide⟩

/-! ## C8: framing check and raw splitting -/

/-- C8: a buffer whose length is not a multiple of `packet_size` fails the
constructor's completeness check (so no packets are ever produced), while a
buffer whose length is a positive multiple `n * packet_size` passes it and
splits into exactly `length / packet_size` packets, the `i`-th being the
bytes of `[i * packet_size, (i+1) * packet_size)`. -/
theorem framing_check_and_split (data : List Nat) (packet_size n : Nat) :
    (data.length % packet_size ≠ 0 →
      ∃ msg, initSizeCheck data.length packet_size = Except.error msg) ∧
    (0 < packet_size → 0 < n → data.length = n * packet_size →
      initSizeCheck data.length packet_size = Except.ok () ∧
      (splitPackets data packet_size).length = data.length / packet_size ∧
      ∀ i, i < n →
        (splitPackets data packet_size).getD i []
            = (data.drop (i * packet_size)).take packet_size ∧
          ((splitPackets data packet_size).getD i []).length = packet_size) := by
  constructor
  · intro h
    exact ⟨_, by unfold initSizeCheck; rw [if_pos h]⟩
  · intro hps hn hlen
    have hmod : data.length % packet_size = 0 := by
      rw [hlen]; exact Nat.mul_mod_left n packet_size
    have hcount : (data.length + packet_size - 1) / packet_size = n := by
      rw [hlen]
      have h1 : n * packet_size + packet_size - 1 = packet_size * n + (packet_size - 1) := by
        rw [Nat.mul_comm packet_size n]; omega
      rw [h1, Nat.mul_add_div hps n (packet_size - 1),
        Nat.div_eq_of_lt (show packet_size - 1 < packet_size by omega)]
      omega
    have hdiv : data.length / packet_size = n := by
      rw [hlen]; exact Nat.mul_div_cancel n hps
    refine ⟨by simp [initSizeCheck, hmod], ?_, ?_⟩
    · simp only [splitPackets, List.length_map, List.length_range, hcount, hdiv]
    · intro i hi
      have hget : (splitPackets data packet_size).getD i []
          = (data.drop (i * packet_size)).take packet_size := by
        unfold splitPackets
        rw [List.getD_eq_getElem?_getD, List.getElem?_map, List.getElem?_range
          (by rw [hcount]; exact hi)]
        rfl
      refine ⟨hget, ?_⟩
      rw [hget]
      have hle : i * packet_size + packet_size ≤ n * packet_size := by
        have h2 : (i + 1) * packet_size ≤ n * packet_size :=
          Nat.mul_le_mul_right packet_size hi
        have h3 : (i + 1) * packet_size = i * packet_size + packet_size :=
          Nat.succ_mul i packet_size
        omega
      simp only [List.length_take, List.length_drop, hlen]
      omega

/-- Witness for C8: a 3-byte buffer is rejected for packet size 2, while a
4-byte buffer splits into two 2-byte packets. -/
theorem framing_check_and_split_witness :
    ((([1, 2, 3] : List Nat).length % 2 ≠ 0 ∧
        ∃ msg, initSizeCheck ([1, 2, 3] : List Nat).length 2 = Except.error msg)) ∧
      (initSizeCheck ([5, 6, 7, 8] : List Nat).length 2 = Except.ok () ∧
        (splitPackets [5, 6, 7, 8] 2).length = ([5, 6, 7, 8] : List Nat).length / 2 ∧
        (splitPackets [5, 6, 7, 8] 2).getD 1 [] = [7, 8]) := by
  have h1 := (framing_check_and_split [1, 2, 3] 2 0).1 (by decide)
  have h2 := (framing_check_and_split [5, 6, 7, 8] 2 2).2 (by decide) (by decide) (by decide)
  exact ⟨⟨by decide, h1⟩, h2.1, h2.2.1, by
    have := (h2.2.2 1 (by decide)).1
    rw [this]; decide⟩

/-! ## Telemetry decoding lemmas -/

theorem slice_length_of_fit (sec : List Nat) (pos size : Nat)
    (h : pos + size ≤ sec.length) : ((sec.drop pos).take size).length = size := by
  simp only [List.length_take, List.length_drop]
  omega

/-- When the slice fits, decoding returns the affine-transformed integer. -/
theorem getTelemetry_eq_of_fit (fields : List (String × FieldDescriptor))
    (layout : Layout) (endianness : String) (field_name : String)
    (fd : FieldDescriptor) (packet : StructuredPacket) (sec : List Nat)
    (hf : dictGet fields field_name = some fd)
    (hs : dictGet packet fd.sectionName = some sec)
    (hfit : fd.position + fd.size ≤ sec.length) :
    get_telemetry_value_by_name fields (some layout) endianness field_name packet
      = Except.ok
          ((intFromBytes (fd.endianness.getD endianness) (fd.signed.getD false)
              ((sec.drop fd.position).take fd.size) : ℚ)
            * fd.k.getD 1 + fd.offset.getD 0) := by
  unfold get_telemetry_value_by_name
  rw [hf]
  simp only [Option.isNone_some, Bool.false_eq_true, if_false, hs]
  rw [if_neg]
  simp [slice_length_of_fit sec fd.position fd.size hfit]

/-- When the slice overruns the section, decoding fails with the
size-mismatch error. -/
theorem getTelemetry_eq_error_of_overrun (fields : List (String × FieldDescriptor))
    (layout : Layout) (endianness : String) (field_name : String)
    (fd : FieldDescriptor) (packet : StructuredPacket) (sec : List Nat)
    (hf : dictGet fields field_name = some fd)
    (hs : dictGet packet fd.sectionName = some sec)
    (hsize : 0 < fd.size)
    (hover : sec.length < fd.position + fd.size) :
    ((sec.drop fd.position).take fd.size).length < fd.size ∧
    get_telemetry_value_by_name fields (some layout) endianness field_name packet
      = Except.error (sizeMismatchMessage field_name fd.size
          ((sec.drop fd.position).take fd.size).length) := by
  have hlt : ((sec.drop fd.position).take fd.size).length < fd.size := by
    simp only [List.length_take, List.length_drop]
    omega
  refine ⟨hlt, ?_⟩
  unfold get_telemetry_value_by_name
  rw [hf]
  simp only [Option.isNone_some, Bool.false_eq_true, if_false, hs]
  rw [if_pos (by omega)]

/-- C4: for every packet containing the descriptor's section, decoding a
field reads exactly `size` bytes at `position` within that section,
interprets them per the descriptor's (or format default) endianness and
signedness, and returns `raw * k + offset`; with the `vBatAverage`
descriptor, raw bytes `0x1234` decode to `4660 * 0.01873128 - 38.682956`. -/
theorem decode_field_affine :
    (∀ (fields : List (String × FieldDescriptor)) (layout : Layout)
        (endianness field_name : String) (fd : FieldDescriptor)
        (packet : StructuredPacket) (sec : List Nat),
      dictGet fields field_name = some fd →
      dictGet packet fd.sectionName = some sec →
      fd.position + fd.size ≤ sec.length →
      ((sec.drop fd.position).take fd.size).length = fd.size ∧
      get_telemetry_value_by_name fields (some layout) endianness field_name packet
        = Except.ok
            ((intFromBytes (fd.endianness.getD endianness) (fd.signed.getD false)
                ((sec.drop fd.position).take fd.size) : ℚ)
              * fd.k.getD 1 + fd.offset.getD 0)) ∧
    (∀ (packet : StructuredPacket) (sec : List Nat),
      dictGet packet "PCS" = some sec →
      (sec.drop 750).take 2 = [0x12, 0x34] →
      get_telemetry_value_by_name SACD_fields (some SACD_frame_parts) "big" "vBatAverage" packet
        = Except.ok ((4660 : ℚ) * (0.01873128 : ℚ) - (38.682956 : ℚ))) := by
  constructor
  · intro fields layout endianness field_name fd packet sec hf hs hfit
    exact ⟨slice_length_of_fit sec fd.position fd.size hfit,
      getTelemetry_eq_of_fit fields layout endianness field_name fd packet sec hf hs hfit⟩
  · intro packet sec hs hbytes
    have hfit : (750 : Nat) + 2 ≤ sec.length := by
      by_contra hlt
      have h2 : ((sec.drop 750).take 2).length < 2 := by
        simp only [List.length_take, List.length_drop]
        omega
      rw [hbytes] at h2
      simp at h2
    have h := getTelemetry_eq_of_fit SACD_fields SACD_frame_parts "big" "vBatAverage"
      ⟨"PCS", 750, 2, none, none, some (0.01873128 : ℚ), some (-38.682956 : ℚ), some "V"⟩
      packet sec rfl hs hfit
    rw [h, hbytes]
    norm_num [intFromBytes, intFromBytesU]

/-- Witness for C4 on a concrete packet whose `PCS` section holds bytes
`0x12 0x34` at position 750. -/
theorem decode_field_affine_witness :
    dictGet [("PCS", List.replicate 750 0 ++ [0x12, 0x34])] "PCS"
        = some (List.replicate 750 0 ++ [0x12, 0x34]) ∧
    (((List.replicate 750 0 ++ [0x12, 0x34]).drop 750).take 2 = ([0x12, 0x34] : List Nat)) ∧
    get_telemetry_value_by_name SACD_fields (some SACD_frame_parts) "big" "vBatAverage"
        [("PCS", List.replicate 750 0 ++ [0x12, 0x34])]
      = Except.ok ((4660 : ℚ) * (0.01873128 : ℚ) - (38.682956 : ℚ)) := by
  have h1 : dictGet [("PCS", List.replicate 750 0 ++ [0x12, 0x34])] "PCS"
      = some (List.replicate 750 0 ++ [0x12, 0x34]) := rfl
  have hdrop : ∀ (l r : List Nat) (n : Nat), l.length = n → (l ++ r).drop n = r := by
    intro l r n h
    rw [← h]
    exact List.drop_left l r
  have h2 : ((List.replicate 750 0 ++ [0x12, 0x34]).drop 750).take 2 = ([0x12, 0x34] : List Nat) := by
    rw [hdrop (List.replicate 750 0) [0x12, 0x34] 750 rfl]
    rfl
  exact ⟨h1, h2, decode_field_affine.2 _ _ h1 h2⟩

/-- C10: single-field decoding never reads outside the named section: with
the data model's invariant `0 < size`, it returns a value precisely when
`position + size` is at most the section length, and whenever
`position + size` exceeds it the extracted slice is shorter than the
declared size and the call fails with the size-mismatch error. -/
theorem decode_field_bounds (fields : List (String × FieldDescriptor))
    (layout : Layout) (endianness field_name : String) (fd : FieldDescriptor)
    (packet : StructuredPacket) (sec : List Nat)
    (hf : dictGet fields field_name = some fd)
    (hs : dictGet packet fd.sectionName = some sec)
    (hsize : 0 < fd.size) :
    ((∃ v, get_telemetry_value_by_name fields (some layout) endianness field_name packet
        = Except.ok v) ↔ fd.position + fd.size ≤ sec.length) ∧
    (sec.length < fd.position + fd.size →
      ((sec.drop fd.position).take fd.size).length < fd.size ∧
      get_telemetry_value_by_name fields (some layout) endianness field_name packet
        = Except.error (sizeMismatchMessage field_name fd.size
            ((sec.drop fd.position).take fd.size).length)) := by
  constructor
  · constructor
    · intro hok
      by_contra hover
      obtain ⟨v, hv⟩ := hok
      rw [(getTelemetry_eq_error_of_overrun fields layout endianness field_name fd packet sec
        hf hs hsize (by omega)).2] at hv
      cases hv
    · intro hfit
      exact ⟨_, getTelemetry_eq_of_fit fields layout endianness field_name fd packet sec hf hs hfit⟩
  · intro hover
    exact getTelemetry_eq_error_of_overrun fields layout endianness field_name fd packet sec
      hf hs hsize hover

/-- Witness for C10: a 3-byte section with a field at position 2 of size 2
overruns and fails with the size-mismatch error reporting a 1-byte slice. -/
theorem decode_field_bounds_witness :
    (([7, 8, 9] : List Nat).length < 2 + 2) ∧
    get_telemetry_value_by_name [("f", ⟨"S", 2, 2, none, none, none, none, none⟩)]
        (some [("S", 3)]) "big" "f" [("S", [7, 8, 9])]
      = Except.error (sizeMismatchMessage "f" 2 1) := by
  have h := (decode_field_bounds [("f", ⟨"S", 2, 2, none, none, none, none, none⟩)]
    [("S", 3)] "big" "f" ⟨"S", 2, 2, none, none, none, none, none⟩
    [("S", [7, 8, 9])] [7, 8, 9] rfl rfl (by decide)).2 (by decide)
  exact ⟨by decide, h.2⟩

/-! ## Batch decoding lemmas -/

theorem mapDecode_ok_of_all (f : StructuredPacket → Except String ℚ)
    (g : StructuredPacket → ℚ) :
    ∀ packets : List StructuredPacket,
      (∀ p ∈ packets, f p = Except.ok (g p)) →
      mapDecode f packets = Except.ok (packets.map g)
  | [], _ => rfl
  | p :: ps, h => by
    unfold mapDecode
    rw [h p (List.mem_cons_self p ps),
      mapDecode_ok_of_all f g ps (fun q hq => h q (List.mem_cons_of_mem p hq))]
    rfl

theorem mapDecode_not_ok_of_fail (f : StructuredPacket → Except String ℚ)
    (p : StructuredPacket) (hfail : ∀ v, f p ≠ Except.ok v) :
    ∀ packets : List StructuredPacket, p ∈ packets →
      ∀ vs, mapDecode f packets ≠ Except.ok vs
  | q :: ps, hmem, vs => by
    unfold mapDecode
    rcases List.mem_cons.mp hmem with heq | hmem2
    · subst heq
      match hfp : f p with
      | Except.error e => intro h; cases h
      | Except.ok v => exact absurd hfp (hfail v)
    · match hfq : f q with
      | Except.error e => intro h; cases h
      | Except.ok v =>
        match hrest : mapDecode f ps with
        | Except.error e => intro h; cases h
        | Except.ok ws => exact absurd hrest (mapDecode_not_ok_of_fail f p hfail ps hmem2 ws)

theorem mapDecode_error_of_fail (f : StructuredPacket → Except String ℚ)
    (packets : List StructuredPacket) (p : StructuredPacket) (hmem : p ∈ packets)
    (hfail : ∀ v, f p ≠ Except.ok v) :
    ∃ e, mapDecode f packets = Except.error e := by
  match hres : mapDecode f packets with
  | Except.error e => exact ⟨e, rfl⟩
  | Except.ok vs => exact absurd hres (mapDecode_not_ok_of_fail f p hfail packets hmem vs)

/-- C9: batch field decoding maps the single-packet decoder over the packets
in order, returning one value per packet (and, when requested, the field's
unit); if decoding any single packet fails, the whole batch call fails with
no partial result. -/
theorem decode_all_batch :
    (∀ (fields : List (String × FieldDescriptor)) (layout : Option Layout)
        (endianness field_name : String) (packets : List StructuredPacket)
        (g : StructuredPacket → ℚ),
      (∀ p ∈ packets,
          get_telemetry_value_by_name fields layout endianness field_name p
            = Except.ok (g p)) →
      get_all_telemetry_values_by_name fields layout endianness field_name packets false
          = Except.ok (packets.map g, none) ∧
        (packets.map g).length = packets.length ∧
        (∀ fd u, dictGet fields field_name = some fd → fd.unit = some u →
          get_all_telemetry_values_by_name fields layout endianness field_name packets true
            = Except.ok (packets.map g, some u))) ∧
    (∀ (fields : List (String × FieldDescriptor)) (layout : Option Layout)
        (endianness field_name : String) (packets : List StructuredPacket)
        (p : StructuredPacket),
      p ∈ packets →
      (∀ v, get_telemetry_value_by_name fields layout endianness field_name p
          ≠ Except.ok v) →
      ∀ return_unit res,
        get_all_telemetry_values_by_name fields layout endianness field_name packets return_unit
          ≠ Except.ok res) := by
  constructor
  · intro fields layout endianness field_name packets g hall
    have hmap := mapDecode_ok_of_all
      (get_telemetry_value_by_name fields layout endianness field_name) g packets hall
    refine ⟨?_, List.length_map packets g, ?_⟩
    · unfold get_all_telemetry_values_by_name
      rw [if_neg (by simp), hmap]
      rfl
    · intro fd u hfd hu
      unfold get_all_telemetry_values_by_name
      rw [if_pos rfl, hfd, hmap]
      simp [hu, Except.map]
  · intro fields layout endianness field_name packets p hmem hfail return_unit res
    obtain ⟨e, he⟩ := mapDecode_error_of_fail
      (get_telemetry_value_by_name fields layout endianness field_name) packets p hmem hfail
    unfold get_all_telemetry_values_by_name
    cases return_unit with
    | false =>
      rw [if_neg (by simp), he]
      intro h
      cases h
    | true =>
      rw [if_pos rfl]
      split
      · intro h
        cases h
      · split
        · intro h
          cases h
        · rw [he]
          intro h
          cases h

/-- Witness for C9: a two-packet batch decodes to two values in order, and a
batch containing a packet without the field's section is rejected whole. -/
theorem decode_all_batch_witness :
    (get_all_telemetry_values_by_name [("f", ⟨"S", 0, 1, none, none, none, none, some "V"⟩)]
        (some [("S", 1)]) "big" "f" [[("S", [5])], [("S", [7])]] false
      = Except.ok ([[("S", [5])], [("S", [7])]].map
          (fun p => ((intFromBytes "big" false ((((dictGet p "S").getD []).drop 0).take 1) : ℚ)
            * 1 + 0)), none)) ∧
    (∀ res, get_all_telemetry_values_by_name
        [("f", ⟨"S", 0, 1, none, none, none, none, some "V"⟩)]
        (some [("S", 1)]) "big" "f" [[("X", [9])]] false ≠ Except.ok res) := by
  constructor
  · exact (decode_all_batch.1 [("f", ⟨"S", 0, 1, none, none, none, none, some "V"⟩)]
      (some [("S", 1)]) "big" "f" [[("S", [5])], [("S", [7])]]
      (fun p => ((intFromBytes "big" false ((((dictGet p "S").getD []).drop 0).take 1) : ℚ)
        * 1 + 0))
      (by
        intro p hp
        rcases List.mem_cons.mp hp with h | hp2
        · subst h; rfl
        · rcases List.mem_cons.mp hp2 with h | hp3
          · subst h; rfl
          · cases hp3)).1
  · intro res
    exact decode_all_batch.2 [("f", ⟨"S", 0, 1, none, none, none, none, some "V"⟩)]
      (some [("S", 1)]) "big" "f" [[("X", [9])]] [("X", [9])]
      (List.mem_cons_self _ _) (fun v h => by cases h) false res

/-! ## CRC mismatch reporting (C1) -/

theorem validateCrcFrom_error_at (sections : Layout) (endianness : String)
    (crcfn : List Nat → Nat) :
    ∀ (packets : List StructuredPacket) (i start : Nat),
      i < packets.length →
      (∀ j, j < i → crcfn (dataForCrc sections (packets.getD j []))
          = expectedCrcOf endianness (packets.getD j [])) →
      crcfn (dataForCrc sections (packets.getD i []))
          ≠ expectedCrcOf endianness (packets.getD i []) →
      validateCrcFrom sections endianness crcfn start packets
        = Except.error (crcMismatchMessage (start + i)
            (expectedCrcOf endianness (packets.getD i []))
            (crcfn (dataForCrc sections (packets.getD i []))))
  | pkt :: rest, i, start, hi, hpass, hfail => by
    cases i with
    | zero =>
      unfold validateCrcFrom
      rw [if_pos (by exact hfail)]
      rfl
    | succ j =>
      have hok : crcfn (dataForCrc sections pkt) = expectedCrcOf endianness pkt :=
        hpass 0 (Nat.succ_pos j)
      unfold validateCrcFrom
      rw [if_neg (by simpa using hok)]
      have hrec := validateCrcFrom_error_at sections endianness crcfn rest j (start + 1)
        (by simpa using hi) (fun m hm => hpass (m + 1) (by omega)) hfail
      rw [hrec, Nat.add_assoc, Nat.add_comm 1 j]
      rfl

/-- C1 (amended): when CRC validation finds its first mismatch at 0-based
packet index `i`, it fails with the mismatch error reporting the 1-based
index `i + 1` (the loop counts `enumerate(packets, start=1)`) together with
the stored and computed checksums, rendered as 4-digit uppercase
hexadecimal by `crcMismatchMessage`. -/
theorem crc_mismatch_reports_one_based_index
    (sections : Layout) (endianness : String) (crcfn : List Nat → Nat)
    (packets : List StructuredPacket) (i : Nat)
    (hcrc : "CRC" ∈ sections.map Prod.fst)
    (hi : i < packets.length)
    (hpass : ∀ j, j < i → crcfn (dataForCrc sections (packets.getD j []))
        = expectedCrcOf endianness (packets.getD j []))
    (hfail : crcfn (dataForCrc sections (packets.getD i []))
        ≠ expectedCrcOf endianness (packets.getD i [])) :
    validate_crc sections endianness crcfn packets
      = Except.error (crcMismatchMessage (i + 1)
          (expectedCrcOf endianness (packets.getD i []))
          (crcfn (dataForCrc sections (packets.getD i [])))) := by
  unfold validate_crc
  rw [if_pos hcrc, validateCrcFrom_error_at sections endianness crcfn packets i 1 hi hpass hfail,
    Nat.add_comm 1 i]

/-- Witness for C1's amended theorem: the first packet passes, the second
(0-based index 1) mismatches, and the report counts it as packet 2. -/
theorem crc_mismatch_reports_one_based_witness :
    validate_crc [("A", 1), ("CRC", 2)] "big" (fun d => crc16_buypass d 0)
        [[("A", [0]), ("CRC", [0, 0])], [("A", [1]), ("CRC", [0, 0])]]
      = Except.error (crcMismatchMessage 2 0 0x8005) :=
  crc_mismatch_reports_one_based_index [("A", 1), ("CRC", 2)] "big"
    (fun d => crc16_buypass d 0)
    [[("A", [0]), ("CRC", [0, 0])], [("A", [1]), ("CRC", [0, 0])]] 1
    (by decide) (by decide)
    (fun j hj => by
      have hj0 : j = 0 := by omega
      subst hj0
      decide)
    (by decide)

/-- Counterexample to C1 as stated: the sole packet sits at 0-based index 0,
yet the error message reports packet 1 (and shows both values in 4-digit
uppercase hexadecimal); the message differs from the 0-based one the claim
requires. -/
theorem crc_mismatch_zero_based_counterexample :
    validate_crc [("A", 1), ("CRC", 2)] "big" (fun d => crc16_buypass d 0)
        [[("A", [1]), ("CRC", [0, 0])]]
      = Except.error "CRC mismatch in packet 1: expected 0x0000, got 0x8005" ∧
    ("CRC mismatch in packet 1: expected 0x0000, got 0x8005" : String)
      ≠ "CRC mismatch in packet 0: expected 0x0000, got 0x8005" :=
  ⟨rfl, by decide⟩

/-! ## Ordering lemmas (C5) -/

instance : IsTotal (ℚ × StructuredPacket) obtKeyLe := ⟨fun a b => le_total a.1 b.1⟩

instance : IsTrans (ℚ × StructuredPacket) obtKeyLe := ⟨fun _ _ _ h1 h2 => le_trans h1 h2⟩

theorem tagWithKey_ok_of_all (keyfn : StructuredPacket → Except String ℚ)
    (g : StructuredPacket → ℚ) :
    ∀ packets : List StructuredPacket,
      (∀ p ∈ packets, keyfn p = Except.ok (g p)) →
      tagWithKey keyfn packets = Except.ok (packets.map (fun p => (g p, p)))
  | [], _ => rfl
  | p :: ps, h => by
    unfold tagWithKey
    rw [h p (List.mem_cons_self p ps),
      tagWithKey_ok_of_all keyfn g ps (fun q hq => h q (List.mem_cons_of_mem p hq))]
    rfl

/-- Inserting an element keeps the key-filtered sublist stable: elements
skipped by `orderedInsert` have strictly smaller keys. -/
theorem orderedInsert_filter_key (v : ℚ) (a : ℚ × StructuredPacket) :
    ∀ l : List (ℚ × StructuredPacket),
      (l.orderedInsert obtKeyLe a).filter (fun x => decide (x.1 = v))
        = if a.1 = v then a :: l.filter (fun x => decide (x.1 = v))
          else l.filter (fun x => decide (x.1 = v))
  | [] => by
    by_cases h : a.1 = v <;> simp [List.orderedInsert, h]
  | b :: l => by
    by_cases hab : obtKeyLe a b
    · rw [List.orderedInsert_of_le obtKeyLe l hab]
      by_cases h : a.1 = v <;> simp [List.filter_cons, h]
    · have hrec := orderedInsert_filter_key v a l
      have hoi : (b :: l).orderedInsert obtKeyLe a = b :: l.orderedInsert obtKeyLe a := by
        simp [List.orderedInsert, hab]
      have hlt : b.1 < a.1 := lt_of_not_le hab
      by_cases h : a.1 = v
      · have hbv : ¬ (b.1 = v) := by
          intro hb
          rw [h] at hlt
          rw [hb] at hlt
          exact lt_irrefl v hlt
        rw [hoi]
        simp only [List.filter_cons, hrec]
        simp [h, hbv]
      · rw [hoi]
        simp only [List.filter_cons, hrec]
        by_cases hb : b.1 = v <;> simp [h, hb]

/-- The whole insertion sort keeps the key-filtered sublist stable. -/
theorem insertionSort_filter_key (v : ℚ) :
    ∀ l : List (ℚ × StructuredPacket),
      (l.insertionSort obtKeyLe).filter (fun x => decide (x.1 = v))
        = l.filter (fun x => decide (x.1 = v))
  | [] => rfl
  | a :: l => by
    have hdef : (a :: l).insertionSort obtKeyLe
        = (l.insertionSort obtKeyLe).orderedInsert obtKeyLe a := rfl
    rw [hdef, orderedInsert_filter_key v a (l.insertionSort obtKeyLe),
      insertionSort_filter_key v l]
    by_cases h : a.1 = v <;> simp [List.filter_cons, h]

theorem filter_map_snd (q : StructuredPacket → Bool) :
    ∀ l : List (ℚ × StructuredPacket),
      (l.map Prod.snd).filter q = (l.filter (fun x => q x.2)).map Prod.snd
  | [] => rfl
  | x :: l => by
    simp only [List.map_cons, List.filter_cons]
    by_cases h : q x.2 <;> simp [h, filter_map_snd q l]

theorem tagged_filter_map (q : StructuredPacket → Bool) (g : StructuredPacket → ℚ) :
    ∀ packets : List StructuredPacket,
      ((packets.map (fun p => (g p, p))).filter (fun x => q x.2)).map Prod.snd
        = packets.filter q
  | [] => rfl
  | p :: ps => by
    simp only [List.map_cons, List.filter_cons]
    by_cases h : q p <;> simp [h, tagged_filter_map q g ps]

/-- C5: ordering packets produces a new sequence that is a stable ascending
sort by the raw (unscaled) `OBT` integer: the result is a permutation of the
input, pairwise ascending in the raw value, and for every raw value the
packets holding it appear in their original relative order. -/
theorem order_packets_stable_ascending
    (packets : List StructuredPacket) (rawOBT : StructuredPacket → Nat)
    (hkeys : ∀ p ∈ packets, get_ordering_key p = Except.ok ((rawOBT p : ℚ))) :
    ∃ out : List StructuredPacket,
      order_packets get_ordering_key packets = Except.ok out ∧
      out.Perm packets ∧
      out.Pairwise (fun p q => rawOBT p ≤ rawOBT q) ∧
      ∀ v : Nat, out.filter (fun p => decide (rawOBT p = v))
        = packets.filter (fun p => decide (rawOBT p = v)) := by
  have htag := tagWithKey_ok_of_all get_ordering_key (fun p => (rawOBT p : ℚ)) packets hkeys
  have hmem : ∀ x ∈ (packets.map (fun p => ((rawOBT p : ℚ), p))).insertionSort obtKeyLe,
      x.1 = (rawOBT x.2 : ℚ) := by
    intro x hx
    rw [List.mem_insertionSort] at hx
    obtain ⟨p, _, rfl⟩ := List.mem_map.mp hx
    rfl
  refine ⟨((packets.map (fun p => ((rawOBT p : ℚ), p))).insertionSort obtKeyLe).map Prod.snd,
    ?_, ?_, ?_, ?_⟩
  · unfold order_packets
    rw [htag]
    rfl
  · have hperm :=
      (List.perm_insertionSort obtKeyLe (packets.map (fun p => ((rawOBT p : ℚ), p)))).map Prod.snd
    have hid : (Prod.snd ∘ fun p : StructuredPacket => ((rawOBT p : ℚ), p))
        = fun p : StructuredPacket => p := rfl
    simpa [List.map_map, hid] using hperm
  · rw [List.pairwise_map]
    refine List.Pairwise.imp_of_mem ?_
      (List.sorted_insertionSort obtKeyLe (packets.map (fun p => ((rawOBT p : ℚ), p))))
    intro a b ha hb hr
    have h1 := hmem a ha
    have h2 := hmem b hb
    have hle : (rawOBT a.2 : ℚ) ≤ (rawOBT b.2 : ℚ) := by
      rw [← h1, ← h2]
      exact hr
    exact_mod_cast hle
  · intro v
    have hcong : ∀ x ∈ (packets.map (fun p => ((rawOBT p : ℚ), p))).insertionSort obtKeyLe,
        (decide (rawOBT x.2 = v) : Bool) = decide (x.1 = (v : ℚ)) := by
      intro x hx
      rw [decide_eq_decide, hmem x hx]
      exact (@Nat.cast_inj ℚ _ _ _ _).symm
    have hcong2 : ∀ x ∈ packets.map (fun p => ((rawOBT p : ℚ), p)),
        (decide (x.1 = (v : ℚ)) : Bool) = decide (rawOBT x.2 = v) := by
      intro x hx
      obtain ⟨p, _, rfl⟩ := List.mem_map.mp hx
      rw [decide_eq_decide]
      exact @Nat.cast_inj ℚ _ _ _ _
    calc (((packets.map (fun p => ((rawOBT p : ℚ), p))).insertionSort obtKeyLe).map
            Prod.snd).filter (fun p => decide (rawOBT p = v))
        = (((packets.map (fun p => ((rawOBT p : ℚ), p))).insertionSort obtKeyLe).filter
            (fun x => decide (rawOBT x.2 = v))).map Prod.snd :=
          filter_map_snd _ _
      _ = (((packets.map (fun p => ((rawOBT p : ℚ), p))).insertionSort obtKeyLe).filter
            (fun x => decide (x.1 = (v : ℚ)))).map Prod.snd := by
          rw [List.filter_congr hcong]
      _ = ((packets.map (fun p => ((rawOBT p : ℚ), p))).filter
            (fun x => decide (x.1 = (v : ℚ)))).map Prod.snd := by
          rw [insertionSort_filter_key (v : ℚ) (packets.map (fun p => ((rawOBT p : ℚ), p)))]
      _ = ((packets.map (fun p => ((rawOBT p : ℚ), p))).filter
            (fun x => decide (rawOBT x.2 = v))).map Prod.snd := by
          rw [List.filter_congr hcong2]
      _ = packets.filter (fun p => decide (rawOBT p = v)) :=
          tagged_filter_map (fun p => decide (rawOBT p = v)) (fun p => (rawOBT p : ℚ)) packets

/-- The `OBT` ordering key of a packet with a large-enough `CDH` section is
the raw 4-byte big-endian unsigned integer at offset 92 (the descriptor has
no scale or offset, so the key is the unscaled value). -/
theorem get_ordering_key_eq (packet : StructuredPacket) (sec : List Nat)
    (hs : dictGet packet "CDH" = some sec) (hlen : 96 ≤ sec.length) :
    get_ordering_key packet
      = Except.ok ((intFromBytesU "big" ((sec.drop 92).take 4) : ℚ)) := by
  have h := getTelemetry_eq_of_fit SACD_fields SACD_frame_parts "big" "OBT"
    ⟨"CDH", 92, 4, none, none, none, none, some "GPS Time"⟩ packet sec rfl hs
    (show 92 + 4 ≤ sec.length by omega)
  unfold get_ordering_key
  rw [h]
  congr 1
  have h2 : intFromBytes "big" false ((sec.drop 92).take 4)
      = ((intFromBytesU "big" ((sec.drop 92).take 4) : Nat) : Int) := by
    simp [intFromBytes]
  simp only [Option.getD]
  rw [h2]
  push_cast
  ring

/-- Witness for C5: four packets with OBT raw values `[5, 3, 5, 1]`
(distinguished by a `TAG` section) order to `[1, 3, 5, 5]` with the two
value-5 packets in their original relative order, and the stable-sort
properties hold there. -/
theorem order_packets_stable_ascending_witness :
    order_packets get_ordering_key
        [[("CDH", List.replicate 92 0 ++ [0, 0, 0, 5]), ("TAG", [10])],
         [("CDH", List.replicate 92 0 ++ [0, 0, 0, 3]), ("TAG", [11])],
         [("CDH", List.replicate 92 0 ++ [0, 0, 0, 5]), ("TAG", [12])],
         [("CDH", List.replicate 92 0 ++ [0, 0, 0, 1]), ("TAG", [13])]]
      = Except.ok
        [[("CDH", List.replicate 92 0 ++ [0, 0, 0, 1]), ("TAG", [13])],
         [("CDH", List.replicate 92 0 ++ [0, 0, 0, 3]), ("TAG", [11])],
         [("CDH", List.replicate 92 0 ++ [0, 0, 0, 5]), ("TAG", [10])],
         [("CDH", List.replicate 92 0 ++ [0, 0, 0, 5]), ("TAG", [12])]] ∧
    (∃ out : List StructuredPacket,
      order_packets get_ordering_key
          [[("CDH", List.replicate 92 0 ++ [0, 0, 0, 5]), ("TAG", [10])],
           [("CDH", List.replicate 92 0 ++ [0, 0, 0, 3]), ("TAG", [11])],
           [("CDH", List.replicate 92 0 ++ [0, 0, 0, 5]), ("TAG", [12])],
           [("CDH", List.replicate 92 0 ++ [0, 0, 0, 1]), ("TAG", [13])]]
        = Except.ok out ∧
      out.Perm
          [[("CDH", List.replicate 92 0 ++ [0, 0, 0, 5]), ("TAG", [10])],
           [("CDH", List.replicate 92 0 ++ [0, 0, 0, 3]), ("TAG", [11])],
           [("CDH", List.replicate 92 0 ++ [0, 0, 0, 5]), ("TAG", [12])],
           [("CDH", List.replicate 92 0 ++ [0, 0, 0, 1]), ("TAG", [13])]] ∧
      out.Pairwise (fun p q =>
        intFromBytesU "big" ((((dictGet p "CDH").getD []).drop 92).take 4)
          ≤ intFromBytesU "big" ((((dictGet q "CDH").getD []).drop 92).take 4)) ∧
      ∀ v : Nat,
        out.filter (fun p =>
            decide (intFromBytesU "big" ((((dictGet p "CDH").getD []).drop 92).take 4) = v))
          = List.filter (fun p =>
              decide (intFromBytesU "big" ((((dictGet p "CDH").getD []).drop 92).take 4) = v))
              [[("CDH", List.replicate 92 0 ++ [0, 0, 0, 5]), ("TAG", [10])],
               [("CDH", List.replicate 92 0 ++ [0, 0, 0, 3]), ("TAG", [11])],
               [("CDH", List.replicate 92 0 ++ [0, 0, 0, 5]), ("TAG", [12])],
               [("CDH", List.replicate 92 0 ++ [0, 0, 0, 1]), ("TAG", [13])]]) :=
  by
  have hkeys : ∀ p ∈
      [[("CDH", List.replicate 92 0 ++ [0, 0, 0, 5]), ("TAG", [10])],
       [("CDH", List.replicate 92 0 ++ [0, 0, 0, 3]), ("TAG", [11])],
       [("CDH", List.replicate 92 0 ++ [0, 0, 0, 5]), ("TAG", [12])],
       [("CDH", List.replicate 92 0 ++ [0, 0, 0, 1]), ("TAG", [13])]],
      get_ordering_key p = Except.ok
        ((intFromBytesU "big" ((((dictGet p "CDH").getD []).drop 92).take 4) : ℚ)) := by
    intro p hp
    simp only [List.mem_cons, List.not_mem_nil, or_false] at hp
    rcases hp with rfl | rfl | rfl | rfl <;>
      exact get_ordering_key_eq _ _ rfl (Nat.le_of_eq rfl)
  constructor
  · have htag := tagWithKey_ok_of_all get_ordering_key
      (fun p => (intFromBytesU "big" ((((dictGet p "CDH").getD []).drop 92).take 4) : ℚ))
      _ hkeys
    unfold order_packets
    rw [htag]
    have hk1 : intFromBytesU "big" ((((dictGet
        [("CDH", List.replicate 92 0 ++ [0, 0, 0, 5]), ("TAG", [10])] "CDH").getD
          []).drop 92).take 4) = 5 := rfl
    have hk2 : intFromBytesU "big" ((((dictGet
        [("CDH", List.replicate 92 0 ++ [0, 0, 0, 3]), ("TAG", [11])] "CDH").getD
          []).drop 92).take 4) = 3 := rfl
    have hk3 : intFromBytesU "big" ((((dictGet
        [("CDH", List.replicate 92 0 ++ [0, 0, 0, 5]), ("TAG", [12])] "CDH").getD
          []).drop 92).take 4) = 5 := rfl
    have hk4 : intFromBytesU "big" ((((dictGet
        [("CDH", List.replicate 92 0 ++ [0, 0, 0, 1]), ("TAG", [13])] "CDH").getD
          []).drop 92).take 4) = 1 := rfl
    simp only [List.map_cons, List.map_nil, Except.map, hk1, hk2, hk3, hk4]
    norm_num [List.insertionSort, List.orderedInsert, obtKeyLe]
  · exact order_packets_stable_ascending
      [[("CDH", List.replicate 92 0 ++ [0, 0, 0, 5]), ("TAG", [10])],
       [("CDH", List.replicate 92 0 ++ [0, 0, 0, 3]), ("TAG", [11])],
       [("CDH", List.replicate 92 0 ++ [0, 0, 0, 5]), ("TAG", [12])],
       [("CDH", List.replicate 92 0 ++ [0, 0, 0, 1]), ("TAG", [13])]]
      (fun p => intFromBytesU "big" ((((dictGet p "CDH").getD []).drop 92).take 4))
      hkeys

/-! ## CRC single-bit-error detection machinery (C2) -/

/-- The table, fully evaluated. -/
theorem crcTable_eq :
    CRC16_BUYPASS_TABLE =
    [0, 32773, 32783, 10, 32795, 30, 20, 32785, 32819, 54, 60, 32825, 40, 32813,
     32807, 34, 32867, 102, 108, 32873, 120, 32893, 32887, 114, 80, 32853, 32863, 90,
     32843, 78, 68, 32833, 32963, 198, 204, 32969, 216, 32989, 32983, 210, 240, 33013,
     33023, 250, 33003, 238, 228, 32993, 160, 32933, 32943, 170, 32955, 190, 180, 32945,
     32915, 150, 156, 32921, 136, 32909, 32903, 130, 33155, 390, 396, 33161, 408, 33181,
     33175, 402, 432, 33205, 33215, 442, 33195, 430, 420, 33185, 480, 33253, 33263, 490,
     33275, 510, 500, 33265, 33235, 470, 476, 33241, 456, 33229, 33223, 450, 320, 33093,
     33103, 330, 33115, 350, 340, 33105, 33139, 374, 380, 33145, 360, 33133, 33127, 354,
     33059, 294, 300, 33065, 312, 33085, 33079, 306, 272, 33045, 33055, 282, 33035, 270,
     260, 33025, 33539, 774, 780, 33545, 792, 33565, 33559, 786, 816, 33589, 33599, 826,
     33579, 814, 804, 33569, 864, 33637, 33647, 874, 33659, 894, 884, 33649, 33619, 854,
     860, 33625, 840, 33613, 33607, 834, 960, 33733, 33743, 970, 33755, 990, 980, 33745,
     33779, 1014, 1020, 33785, 1000, 33773, 33767, 994, 33699, 934, 940, 33705, 952, 33725,
     33719, 946, 912, 33685, 33695, 922, 33675, 910, 900, 33665, 640, 33413, 33423, 650,
     33435, 670, 660, 33425, 33459, 694, 700, 33465, 680, 33453, 33447, 674, 33507, 742,
     748, 33513, 760, 33533, 33527, 754, 720, 33493, 33503, 730, 33483, 718, 708, 33473,
     33347, 582, 588, 33353, 600, 33373, 33367, 594, 624, 33397, 33407, 634, 33387, 622,
     612, 33377, 544, 33317, 33327, 554, 33339, 574, 564, 33329, 33299, 534, 540, 33305,
     520, 33293, 33287, 514] := by rfl

theorem crcTable_length_eq : CRC16_BUYPASS_TABLE.length = 256 := by
  rw [crcTable_eq]
  rfl

/-- The low bytes of the 256 table entries are pairwise distinct (a decidable
fact of the concrete table for polynomial 0x8005). -/
theorem crcTable_low_nodup : (CRC16_BUYPASS_TABLE.map (fun t => t % 256)).Nodup := by
  rw [crcTable_eq]
  decide

theorem crcTable_nodup : CRC16_BUYPASS_TABLE.Nodup :=
  crcTable_low_nodup.of_map (fun t => t % 256)

theorem crcTable_lt : ∀ t ∈ CRC16_BUYPASS_TABLE, t < 65536 := by
  rw [crcTable_eq]
  decide

theorem crcTable_getD_mem (i : Nat) (hi : i < 256) :
    CRC16_BUYPASS_TABLE.getD i 0 ∈ CRC16_BUYPASS_TABLE := by
  have hi2 : i < CRC16_BUYPASS_TABLE.length := by rw [crcTable_length_eq]; omega
  rw [List.getD_eq_get _ 0 hi2]
  exact List.get_mem _ _ _

theorem crcTable_getD_lt (i : Nat) : CRC16_BUYPASS_TABLE.getD i 0 < 65536 := by
  by_cases h : i < 256
  · exact crcTable_lt _ (crcTable_getD_mem i h)
  · rw [List.getD_eq_default]
    · omega
    · rw [crcTable_length_eq]; omega

theorem getD_inj_of_nodup (l : List Nat) (hnd : l.Nodup) (i j : Nat)
    (hi : i < l.length) (hj : j < l.length) (h : l.getD i 0 = l.getD j 0) : i = j := by
  rw [List.getD_eq_get l 0 hi, List.getD_eq_get l 0 hj] at h
  exact congrArg Fin.val ((List.Nodup.get_inj_iff hnd).mp h)

theorem crcTable_low_inj_val (t1 t2 : Nat) (h1 : t1 ∈ CRC16_BUYPASS_TABLE)
    (h2 : t2 ∈ CRC16_BUYPASS_TABLE) (h : t1 % 256 = t2 % 256) : t1 = t2 :=
  List.inj_on_of_nodup_map crcTable_low_nodup h1 h2 h

theorem and_255_eq (a : Nat) : a &&& 255 = a % 256 := Nat.and_pow_two_sub_one_eq_mod a 8

theorem and_65535_eq (a : Nat) : a &&& 65535 = a % 65536 := Nat.and_pow_two_sub_one_eq_mod a 16

theorem xor_left_cancel_nat (a b c : Nat) (h : a ^^^ b = a ^^^ c) : b = c := by
  have h2 := congrArg (fun x => a ^^^ x) h
  simpa [← Nat.xor_assoc, Nat.xor_self] using h2

theorem xor_right_cancel_nat (a b c : Nat) (h : a ^^^ c = b ^^^ c) : a = b := by
  have h2 := congrArg (fun x => x ^^^ c) h
  simpa [Nat.xor_assoc, Nat.xor_self] using h2

/-- Canonical form of the running-update step. -/
theorem crc16Step_eq (crc b : Nat) :
    crc16Step crc b
      = ((crc % 256) * 256)
          ^^^ CRC16_BUYPASS_TABLE.getD ((crc / 256 % 256) ^^^ (b % 256)) 0 := by
  unfold crc16Step
  have h1 : ((crc >>> 8) ^^^ b) &&& 255 = (crc / 256 % 256) ^^^ (b % 256) := by
    rw [Nat.and_xor_distrib_right, and_255_eq, and_255_eq, Nat.shiftRight_eq_div_pow]
  rw [h1]
  have h2 : (crc <<< 8) &&& 65535 = (crc % 256) * 256 := by
    rw [and_65535_eq, Nat.shiftLeft_eq, show ((2:Nat)^8) = 256 from rfl,
      show ((65536:Nat)) = 256 * 256 from rfl, Nat.mul_mod_mul_right 256 crc 256]
  have h3 : (CRC16_BUYPASS_TABLE.getD ((crc / 256 % 256) ^^^ (b % 256)) 0) &&& 65535
      = CRC16_BUYPASS_TABLE.getD ((crc / 256 % 256) ^^^ (b % 256)) 0 := by
    rw [and_65535_eq]
    exact Nat.mod_eq_of_lt (crcTable_getD_lt _)
  rw [Nat.and_xor_distrib_right, h2, h3]

theorem crc16Step_lt (crc b : Nat) : crc16Step crc b < 65536 := by
  unfold crc16Step
  exact lt_of_le_of_lt Nat.and_le_right (by omega)

theorem lowbyte_xor_mul256 (a T : Nat) : ((a * 256) ^^^ T) % 256 = T % 256 := by
  rw [← and_255_eq, Nat.and_xor_distrib_right, and_255_eq, and_255_eq, Nat.mul_mod_left]
  simp

theorem idx_lt_256 (c b : Nat) : (c / 256 % 256) ^^^ (b % 256) < 256 :=
  Nat.xor_lt_two_pow (show c / 256 % 256 < 2 ^ 8 from Nat.mod_lt _ (by omega))
    (show b % 256 < 2 ^ 8 from Nat.mod_lt _ (by omega))

/-- The step is injective in the 16-bit state for a fixed input byte. -/
theorem crc16Step_inj_state (b c1 c2 : Nat) (h1 : c1 < 65536) (h2 : c2 < 65536)
    (hne : c1 ≠ c2) : crc16Step c1 b ≠ crc16Step c2 b := by
  intro heq
  rw [crc16Step_eq, crc16Step_eq] at heq
  have hlow := congrArg (fun x => x % 256) heq
  simp only [lowbyte_xor_mul256] at hlow
  have hTeq : CRC16_BUYPASS_TABLE.getD ((c1 / 256 % 256) ^^^ (b % 256)) 0
      = CRC16_BUYPASS_TABLE.getD ((c2 / 256 % 256) ^^^ (b % 256)) 0 :=
    crcTable_low_inj_val _ _ (crcTable_getD_mem _ (idx_lt_256 c1 b))
      (crcTable_getD_mem _ (idx_lt_256 c2 b)) hlow
  have hidx : (c1 / 256 % 256) ^^^ (b % 256) = (c2 / 256 % 256) ^^^ (b % 256) := by
    refine getD_inj_of_nodup CRC16_BUYPASS_TABLE crcTable_nodup _ _ ?_ ?_ hTeq
    · rw [crcTable_length_eq]; exact idx_lt_256 c1 b
    · rw [crcTable_length_eq]; exact idx_lt_256 c2 b
  have hhi : c1 / 256 % 256 = c2 / 256 % 256 := xor_right_cancel_nat _ _ _ hidx
  rw [hTeq] at heq
  have hlo2 : (c1 % 256) * 256 = (c2 % 256) * 256 := xor_right_cancel_nat _ _ _ heq
  have hlo : c1 % 256 = c2 % 256 := Nat.eq_of_mul_eq_mul_right (by omega) hlo2
  omega

/-- The step is injective in the input byte for a fixed state. -/
theorem crc16Step_inj_byte (c b1 b2 : Nat) (hb1 : b1 < 256) (hb2 : b2 < 256)
    (hne : b1 ≠ b2) : crc16Step c b1 ≠ crc16Step c b2 := by
  intro heq
  rw [crc16Step_eq, crc16Step_eq] at heq
  have hTeq := xor_left_cancel_nat _ _ _ heq
  have hidx : (c / 256 % 256) ^^^ (b1 % 256) = (c / 256 % 256) ^^^ (b2 % 256) := by
    refine getD_inj_of_nodup CRC16_BUYPASS_TABLE crcTable_nodup _ _ ?_ ?_ hTeq
    · rw [crcTable_length_eq]; exact idx_lt_256 c b1
    · rw [crcTable_length_eq]; exact idx_lt_256 c b2
  have hb := xor_left_cancel_nat _ _ _ hidx
  rw [Nat.mod_eq_of_lt hb1, Nat.mod_eq_of_lt hb2] at hb
  exact hne hb

/-- Running the checksum over the same suffix from different 16-bit states
keeps them different. -/
theorem crc16_foldl_inj (l : List Nat) :
    ∀ c1 c2, c1 < 65536 → c2 < 65536 → c1 ≠ c2 →
      crc16_buypass l c1 ≠ crc16_buypass l c2 := by
  induction l with
  | nil => exact fun c1 c2 _ _ hne => hne
  | cons b rest ih =>
    intro c1 c2 h1 h2 hne
    exact ih (crc16Step c1 b) (crc16Step c2 b) (crc16Step_lt c1 b) (crc16Step_lt c2 b)
      (crc16Step_inj_state b c1 c2 h1 h2 hne)

/-- Changing one byte of the input changes the checksum. -/
theorem crc16_set_ne (l : List Nat) :
    ∀ (j c bnew : Nat), c < 65536 → bnew < 256 → (∀ x ∈ l, x < 256) →
      j < l.length → bnew ≠ l.getD j 0 →
      crc16_buypass (l.set j bnew) c ≠ crc16_buypass l c := by
  induction l with
  | nil =>
    intro j c bnew _ _ _ hj _
    simp at hj
  | cons b rest ih =>
    intro j c bnew hc hbnew hbytes hj hne
    cases j with
    | zero =>
      have hb : b < 256 := hbytes b (List.mem_cons_self b rest)
      have hstep := crc16Step_inj_byte c bnew b hbnew hb (by simpa using hne)
      exact crc16_foldl_inj rest (crc16Step c bnew) (crc16Step c b)
        (crc16Step_lt c bnew) (crc16Step_lt c b) hstep
    | succ j2 =>
      exact ih j2 (crc16Step c b) bnew (crc16Step_lt c b) hbnew
        (fun x hx => hbytes x (List.mem_cons_of_mem b hx)) (by simpa using hj)
        (by simpa using hne)

/-- The checksum of all-zero data from initial value 0 is 0. -/
theorem crc16_zeros (n : Nat) : crc16_buypass (List.replicate n 0) 0 = 0 := by
  induction n with
  | zero => rfl
  | succ m ih =>
    have hstep : crc16Step 0 0 = 0 := rfl
    simpa [List.replicate_succ, crc16_buypass, hstep] using ih

/-! ## Validation over the reference layout (C2) -/

/-- The checksummed bytes of a structured reference packet are the bytes of
its first 12 sections, i.e. the first 3998 bytes. -/
theorem dataForCrc_sacd_take (pkt : List Nat) :
    dataForCrc SACD_frame_parts (structurePacket SACD_frame_parts pkt) = pkt.take 3998 := by
  have h1 : dataForCrc SACD_frame_parts (structurePacket SACD_frame_parts pkt)
      = ((structurePacket (SACD_frame_parts.filter (fun s => s.1 ≠ "CRC")) pkt).map
          Prod.snd).flatten := rfl
  rw [h1, structure_flatten_eq_take]
  rfl

/-- The stored checksum of a structured reference packet is the big-endian
value of its last two bytes. -/
theorem expectedCrc_sacd (pkt : List Nat) :
    expectedCrcOf "big" (structurePacket SACD_frame_parts pkt)
      = intFromBytesU "big" ((pkt.drop 3998).take 2) := rfl

/-- Validation of a single structured reference packet, computed. -/
theorem validate_single_eq (pkt : List Nat) :
    validate_crc SACD_frame_parts "big" (fun d => crc16_buypass d 0)
        [structurePacket SACD_frame_parts pkt]
      = if crc16_buypass (pkt.take 3998) 0 ≠ intFromBytesU "big" ((pkt.drop 3998).take 2)
        then Except.error (crcMismatchMessage 1
            (intFromBytesU "big" ((pkt.drop 3998).take 2)) (crc16_buypass (pkt.take 3998) 0))
        else Except.ok () := by
  unfold validate_crc
  rw [if_pos (by decide)]
  have hstep : validateCrcFrom SACD_frame_parts "big" (fun d => crc16_buypass d 0) 1
      [structurePacket SACD_frame_parts pkt]
      = if crc16_buypass (dataForCrc SACD_frame_parts (structurePacket SACD_frame_parts pkt)) 0
            ≠ expectedCrcOf "big" (structurePacket SACD_frame_parts pkt)
        then Except.error (crcMismatchMessage 1
            (expectedCrcOf "big" (structurePacket SACD_frame_parts pkt))
            (crc16_buypass (dataForCrc SACD_frame_parts (structurePacket SACD_frame_parts pkt)) 0))
        else Except.ok () := rfl
  rw [hstep, dataForCrc_sacd_take, expectedCrc_sacd]

/-- C2: validating a structured reference-layout packet succeeds exactly when
the CRC-16/BUYPASS checksum (initial value 0) of the concatenated non-CRC
sections equals the big-endian value stored in the 2-byte CRC section; in
particular a correctly-checksummed packet validates, and flipping any single
bit outside the CRC section makes validation fail with the CRC-mismatch
error. -/
theorem crc_validation_iff_and_bitflip :
    (∀ pkt : List Nat,
      validate_crc SACD_frame_parts "big" (fun d => crc16_buypass d 0)
          [structurePacket SACD_frame_parts pkt] = Except.ok ()
        ↔ crc16_buypass (pkt.take 3998) 0 = intFromBytesU "big" ((pkt.drop 3998).take 2)) ∧
    (∀ (pkt : List Nat) (j k2 : Nat),
      pkt.length = 4000 → (∀ x ∈ pkt, x < 256) → j < 3998 → k2 < 8 →
      crc16_buypass (pkt.take 3998) 0 = intFromBytesU "big" ((pkt.drop 3998).take 2) →
      validate_crc SACD_frame_parts "big" (fun d => crc16_buypass d 0)
          [structurePacket SACD_frame_parts pkt] = Except.ok () ∧
      crc16_buypass ((pkt.set j (pkt.getD j 0 ^^^ 2 ^ k2)).take 3998) 0
          ≠ intFromBytesU "big" ((pkt.drop 3998).take 2) ∧
      validate_crc SACD_frame_parts "big" (fun d => crc16_buypass d 0)
          [structurePacket SACD_frame_parts (pkt.set j (pkt.getD j 0 ^^^ 2 ^ k2))]
        = Except.error (crcMismatchMessage 1
            (intFromBytesU "big" ((pkt.drop 3998).take 2))
            (crc16_buypass ((pkt.set j (pkt.getD j 0 ^^^ 2 ^ k2)).take 3998) 0))) := by
  have hiff : ∀ pkt : List Nat,
      validate_crc SACD_frame_parts "big" (fun d => crc16_buypass d 0)
          [structurePacket SACD_frame_parts pkt] = Except.ok ()
        ↔ crc16_buypass (pkt.take 3998) 0 = intFromBytesU "big" ((pkt.drop 3998).take 2) := by
    intro pkt
    rw [validate_single_eq]
    by_cases h : crc16_buypass (pkt.take 3998) 0
        = intFromBytesU "big" ((pkt.drop 3998).take 2)
    · rw [if_neg (by simp [h])]
      simp [h]
    · rw [if_pos h]
      simp [h]
  refine ⟨hiff, ?_⟩
  intro pkt j k2 hlen hbytes hj hk2 hvalid
  have hbold : pkt.getD j 0 < 256 := by
    have hjlen : j < pkt.length := by omega
    rw [List.getD_eq_getElem?_getD]
    rw [List.getElem?_eq_getElem hjlen]
    exact hbytes _ (List.getElem_mem hjlen)
  have hpow : 2 ^ k2 < 256 := by
    calc 2 ^ k2 < 2 ^ 8 := Nat.pow_lt_pow_right (by omega) hk2
    _ = 256 := rfl
  have hbnew : pkt.getD j 0 ^^^ 2 ^ k2 < 256 :=
    Nat.xor_lt_two_pow (show pkt.getD j 0 < 2 ^ 8 from hbold)
      (show 2 ^ k2 < 2 ^ 8 from hpow)
  have hne : pkt.getD j 0 ^^^ 2 ^ k2 ≠ pkt.getD j 0 := by
    intro he
    have h2 : pkt.getD j 0 ^^^ 2 ^ k2 = pkt.getD j 0 ^^^ 0 := by
      simpa using he
    have h3 : (2 : Nat) ^ k2 = 0 := xor_left_cancel_nat _ _ _ h2
    exact absurd h3 (Nat.pos_iff_ne_zero.mp (Nat.pos_pow_of_pos k2 (by omega)))
  have htake : (pkt.set j (pkt.getD j 0 ^^^ 2 ^ k2)).take 3998
      = (pkt.take 3998).set j (pkt.getD j 0 ^^^ 2 ^ k2) := List.set_take
  have hdrop : (pkt.set j (pkt.getD j 0 ^^^ 2 ^ k2)).drop 3998 = pkt.drop 3998 :=
    List.drop_set_of_lt _ _ hj
  have htakelen : j < (pkt.take 3998).length := by
    rw [List.length_take]
    omega
  have htakeget : (pkt.take 3998).getD j 0 = pkt.getD j 0 := by
    rw [List.getD_eq_getElem?_getD, List.getD_eq_getElem?_getD, List.getElem?_take]
    simp [hj]
  have hcrcne : crc16_buypass ((pkt.take 3998).set j (pkt.getD j 0 ^^^ 2 ^ k2)) 0
      ≠ crc16_buypass (pkt.take 3998) 0 := by
    refine crc16_set_ne (pkt.take 3998) j 0 (pkt.getD j 0 ^^^ 2 ^ k2) (by omega) hbnew
      (fun x hx => hbytes x (List.take_subset 3998 pkt hx)) htakelen ?_
    rw [htakeget]
    exact hne
  have hflipne : crc16_buypass ((pkt.set j (pkt.getD j 0 ^^^ 2 ^ k2)).take 3998) 0
      ≠ intFromBytesU "big" ((pkt.drop 3998).take 2) := by
    rw [htake, ← hvalid]
    exact hcrcne
  refine ⟨(hiff pkt).mpr hvalid, hflipne, ?_⟩
  rw [validate_single_eq, hdrop, if_pos hflipne]

/-- Witness for C2: the all-zero 4000-byte packet is correctly checksummed
(its CRC-16/BUYPASS is 0x0000), validates, and flipping bit 0 of byte 0
makes validation fail with the CRC-mismatch error. -/
theorem crc_validation_iff_and_bitflip_witness :
    validate_crc SACD_frame_parts "big" (fun d => crc16_buypass d 0)
        [structurePacket SACD_frame_parts (List.replicate 4000 0)] = Except.ok () ∧
    crc16_buypass (((List.replicate 4000 0).set 0
          ((List.replicate 4000 0).getD 0 0 ^^^ 2 ^ 0)).take 3998) 0
        ≠ intFromBytesU "big" (((List.replicate 4000 0).drop 3998).take 2) ∧
    validate_crc SACD_frame_parts "big" (fun d => crc16_buypass d 0)
        [structurePacket SACD_frame_parts ((List.replicate 4000 0).set 0
          ((List.replicate 4000 0).getD 0 0 ^^^ 2 ^ 0))]
      = Except.error (crcMismatchMessage 1
          (intFromBytesU "big" (((List.replicate 4000 0).drop 3998).take 2))
          (crc16_buypass (((List.replicate 4000 0).set 0
            ((List.replicate 4000 0).getD 0 0 ^^^ 2 ^ 0)).take 3998) 0)) := by
  have hvalid : crc16_buypass ((List.replicate 4000 0).take 3998) 0
      = intFromBytesU "big" (((List.replicate 4000 0).drop 3998).take 2) := by
    rw [List.take_replicate, List.drop_replicate, List.take_replicate,
      show min 3998 4000 = 3998 from by norm_num, crc16_zeros]
    rfl
  exact crc_validation_iff_and_bitflip.2 (List.replicate 4000 0) 0 0
    (List.length_replicate 4000 0) (fun x hx => by rw [List.eq_of_mem_replicate hx]; omega)
    (by omega) (by omega) hvalid

end SatTelemetry
